import Mathlib

/-!
Shallow embedding of the persistence layer and URL handling of
`src/browser.py` (classes `SettingsManager`, `DownloadItemModel`,
`FuturisticBrowser`), together with theorems settling the specification
claims about it.

Modelling conventions:
* SQLite tables are Lean lists of row structures; `CURRENT_TIMESTAMP` is an
  explicit `now : Nat` argument; `AUTOINCREMENT` ids are `max id + 1`.
* A possible failure of the underlying sqlite/file call is an explicit
  `fail : Bool` argument.  A Python function whose body is wrapped in
  `try/except` (it logs and continues) is total and returns its state
  unchanged on failure; a function with no `try/except` returns
  `Except Unit _`, the `.error` case being the exception propagating to the
  caller.
* Machine integers are `Nat`/`Int`.
-/

/-- A row of the `history` table (`url` is declared UNIQUE). -/
structure HistoryRow where
  id : Nat
  url : String
  title : String
  visit_time : Nat
  visit_count : Nat
deriving DecidableEq

/-- A row of the `bookmarks` table (`url` is declared UNIQUE). -/
structure BookmarkRow where
  id : Nat
  url : String
  title : String
  created_time : Nat
deriving DecidableEq

/-- A row of the `downloads` table. -/
structure DownloadRec where
  id : Nat
  url : String
  filename : String
  filepath : String
  status : String
  size : Int
  downloaded : Int
  start_time : Nat
  end_time : Option Nat
deriving DecidableEq

/-- The slice of a `QWebEngineDownloadItem` read by `DownloadItemModel`:
`url().toString()`, `suggestedFileName()`, `path()`, `totalBytes()`. -/
structure DItem where
  url : String
  suggestedFileName : String
  path : String
  totalBytes : Int
deriving DecidableEq

/-- SQLite `AUTOINCREMENT` id for the next inserted row: one more than the
largest id ever used (rows of these tables are never deleted by id). -/
def nextId (ids : List Nat) : Nat :=
  ids.foldr max 0 + 1

/-- The `DO UPDATE` arm of the history upsert, applied to one row: on the
conflicting row (`url` matches) increment `visit_count` and refresh
`visit_time` and `title`; leave every other row alone. -/
def updFn (url title : String) (now : Nat) (r : HistoryRow) : HistoryRow :=
  if r.url == url then
    { r with visit_count := r.visit_count + 1, visit_time := now,
             title := title }
  else r

/-- `FuturisticBrowser.add_to_history` (browser.py:847-855), success path:
`INSERT INTO history (url, title, visit_time, visit_count) VALUES (?, ?,
CURRENT_TIMESTAMP, 1) ON CONFLICT(url) DO UPDATE SET visit_count =
visit_count + 1, visit_time = CURRENT_TIMESTAMP, title = excluded.title`. -/
def add_to_history (hst : List HistoryRow) (url title : String) (now : Nat) :
    List HistoryRow :=
  if hst.any (fun r => r.url == url) then
    hst.map (updFn url title now)
  else
    hst ++ [⟨nextId (hst.map (·.id)), url, title, now, 1⟩]

/-- `add_to_history` has no `try/except`: a failing sqlite call raises out of
the operation to its caller. -/
def add_to_history_op (hst : List HistoryRow) (url title : String) (now : Nat)
    (fail : Bool) : Except Unit (List HistoryRow) :=
  if fail then .error () else .ok (add_to_history hst url title now)

/-- `FuturisticBrowser.is_bookmarked` (browser.py:807-812), success path:
`SELECT COUNT(*) FROM bookmarks WHERE url = ?`, returning `count > 0`. -/
def is_bookmarked (bms : List BookmarkRow) (url : String) : Bool :=
  decide (0 < bms.countP (fun r => r.url == url))

/-- `is_bookmarked` has no `try/except`: a failing sqlite call raises. -/
def is_bookmarked_op (bms : List BookmarkRow) (url : String) (fail : Bool) :
    Except Unit Bool :=
  if fail then .error () else .ok (is_bookmarked bms url)

/-- `FuturisticBrowser.add_bookmark` (browser.py:814-818), success path:
`INSERT OR REPLACE INTO bookmarks (url, title) VALUES (?, ?)` — the
conflicting row (unique `url`) is deleted and a fresh row inserted with a new
id and a fresh default `created_time`. -/
def add_bookmark (bms : List BookmarkRow) (url title : String) (now : Nat) :
    List BookmarkRow :=
  bms.filter (fun r => !(r.url == url)) ++
    [⟨nextId (bms.map (·.id)), url, title, now⟩]

/-- `add_bookmark` has no `try/except`: a failing sqlite call raises. -/
def add_bookmark_op (bms : List BookmarkRow) (url title : String) (now : Nat)
    (fail : Bool) : Except Unit (List BookmarkRow) :=
  if fail then .error () else .ok (add_bookmark bms url title now)

/-- `FuturisticBrowser.remove_bookmark` (browser.py:820-824), success path:
`DELETE FROM bookmarks WHERE url = ?`. -/
def remove_bookmark (bms : List BookmarkRow) (url : String) :
    List BookmarkRow :=
  bms.filter (fun r => !(r.url == url))

/-- `remove_bookmark` has no `try/except`: a failing sqlite call raises. -/
def remove_bookmark_op (bms : List BookmarkRow) (url : String) (fail : Bool) :
    Except Unit (List BookmarkRow) :=
  if fail then .error () else .ok (remove_bookmark bms url)

/-- `FuturisticBrowser.toggle_bookmark` (browser.py:785-798), storage part:
queries `is_bookmarked`, then removes or adds; no `try/except` anywhere on
the path, so a storage failure propagates out of `toggle_bookmark` as well.
Returns the new bookmark table and the resulting starred state. -/
def toggle_bookmark (bms : List BookmarkRow) (url title : String) (now : Nat)
    (fail : Bool) : Except Unit (List BookmarkRow × Bool) := do
  let starred ← is_bookmarked_op bms url fail
  if starred then
    let bms' ← remove_bookmark_op bms url fail
    return (bms', false)
  else
    let bms' ← add_bookmark_op bms url title now fail
    return (bms', true)

/-- `DownloadItemModel._setup_db_record` (browser.py:170-185): reads the
item's url, suggested file name, path and `totalBytes` (`int(... or 0)`),
then `INSERT INTO downloads (url, filename, filepath, status, size,
downloaded, start_time) VALUES (?, ?, ?, 'downloading', ?, ?,
CURRENT_TIMESTAMP)` with `(total, 0)`, recording `lastrowid` as the model's
`download_id`.  The body is wrapped in `try/except` (logs and continues), so
on failure nothing is inserted and `download_id` stays `None`. -/
def setup_db_record (store : List DownloadRec) (item : DItem) (now : Nat)
    (fail : Bool) : List DownloadRec × Option Nat :=
  if fail then (store, none)
  else
    let rid := nextId (store.map (·.id))
    (store ++ [⟨rid, item.url, item.suggestedFileName, item.path,
               "downloading", item.totalBytes, 0, now, none⟩], some rid)

/-- The per-row effect of the progress `UPDATE`: overwrite `downloaded` and
`size` of the row whose id matches. -/
def progressFn (did : Option Nat) (received total : Int) (r : DownloadRec) :
    DownloadRec :=
  if some r.id == did then { r with downloaded := received, size := total }
  else r

/-- `DownloadItemModel._on_progress` (browser.py:194-202): `UPDATE downloads
SET downloaded = ?, size = ? WHERE id = ?`; wrapped in `try/except`, so a
failing call leaves the table untouched.  `did` is the model's
`download_id` (`WHERE id = NULL` matches no row when it is `none`). -/
def on_progress (store : List DownloadRec) (did : Option Nat)
    (received total : Int) (fail : Bool) : List DownloadRec :=
  if fail then store
  else store.map (progressFn did received total)

/-- The per-row effect of the finish `UPDATE`: overwrite `status` and
`end_time` of the row whose id matches. -/
def finishFn (did : Option Nat) (status : String) (now : Nat)
    (r : DownloadRec) : DownloadRec :=
  if some r.id == did then { r with status := status, end_time := some now }
  else r

/-- `DownloadItemModel._on_finished` (browser.py:204-213): computes
`status = "completed" if os.path.exists(path) else "failed"`, then `UPDATE
downloads SET status = ?, end_time = CURRENT_TIMESTAMP WHERE id = ?`;
wrapped in `try/except`. -/
def on_finished (store : List DownloadRec) (did : Option Nat)
    (fileExists : Bool) (now : Nat) (fail : Bool) : List DownloadRec :=
  let status := if fileExists then "completed" else "failed"
  if fail then store
  else store.map (finishFn did status now)

/-- An engine callback hitting `DownloadItemModel`: either a
`downloadProgress(received, total)` signal or a `finished` signal (with the
`os.path.exists` outcome), each with the possibility that its database
update fails. -/
inductive DEvent
  | progress (received total : Int) (dbFail : Bool)
  | finish (fileExists : Bool) (now : Nat) (dbFail : Bool)
deriving DecidableEq

/-- Dispatch one engine callback to the corresponding handler. -/
def apply_event (store : List DownloadRec) (did : Option Nat) :
    DEvent → List DownloadRec
  | .progress received total f => on_progress store did received total f
  | .finish fileExists now f => on_finished store did fileExists now f

/-- Apply a sequence of engine callbacks in order. -/
def apply_events (store : List DownloadRec) (did : Option Nat)
    (evs : List DEvent) : List DownloadRec :=
  evs.foldl (fun s e => apply_event s did e) store

/-- Recognises a `finished` callback whose database update succeeds — the
only events that write the `status` column. -/
def finishOkP : DEvent → Bool
  | .finish _ _ false => true
  | _ => false

/-- Successful `finished` updates in an event list. -/
def countFinish (evs : List DEvent) : Nat :=
  evs.countP finishOkP

/-- A progress callback is well formed when the engine reports
`received ≤ total` (non-progress events trivially qualify). -/
def progressOkB : DEvent → Bool
  | .progress received total _ => decide (received ≤ total)
  | _ => true

/-- Terminal download statuses named by the specification. -/
def isTerminalStatus (s : String) : Bool :=
  s == "completed" || s == "failed" || s == "canceled"

/-- The `status` column of the table. -/
def statusesOf (store : List DownloadRec) : List String :=
  store.map (·.status)

/-- A JSON value as it occurs in the settings file: the defaults use
strings, booleans and a list of strings; `num` covers numeric values an
external file may contain. -/
inductive SVal
  | str (s : String)
  | bool (b : Bool)
  | num (n : Int)
  | list (l : List String)
deriving DecidableEq

/-- Python `dict` lookup on an association list with unique keys. -/
def dictGet : List (String × SVal) → String → Option SVal
  | [], _ => none
  | kv :: rest, k => if kv.1 == k then some kv.2 else dictGet rest k

/-- Python `dict` assignment: replace the (unique) binding in place, or
append a new one. -/
def dictSet : List (String × SVal) → String → SVal → List (String × SVal)
  | [], k, v => [(k, v)]
  | kv :: rest, k, v =>
    if kv.1 == k then (k, v) :: rest else kv :: dictSet rest k v

/-- `SettingsManager.default_settings` (browser.py:106-115); the
`download_directory` default expands the user's home directory, passed here
as `home`. -/
def default_settings (home : String) : List (String × SVal) :=
  [("theme_color", .str "#2D1B69"),
   ("search_engine", .str "https://www.google.com/search?q="),
   ("homepage", .str "https://www.google.com"),
   ("download_directory", .str (home ++ "/Downloads")),
   ("show_bookmarks_bar", .bool true),
   ("enable_javascript", .bool true),
   ("restore_last_session", .bool true),
   ("last_session_tabs", .list [])]

/-- `SettingsManager.load_settings` (browser.py:127-137): if the file exists
and parses to an object, `self.settings = {**self.default_settings,
**loaded}`; on absence or any exception, a copy of the defaults.  `file` is
`some obj` for a file that exists and parses, `none` otherwise. -/
def load_settings (home : String) (file : Option (List (String × SVal))) :
    List (String × SVal) :=
  match file with
  | some obj => obj.foldl (fun acc kv => dictSet acc kv.1 kv.2)
      (default_settings home)
  | none => default_settings home

/-- In-memory settings plus what is currently on disk (`none` = no
successfully written file). -/
structure SettingsState where
  settings : List (String × SVal)
  disk : Option (List (String × SVal))
deriving DecidableEq

/-- `SettingsManager.get` (browser.py:146-147):
`self.settings.get(key, self.default_settings.get(key))`. -/
def settings_get (home : String) (settings : List (String × SVal))
    (key : String) : Option SVal :=
  match dictGet settings key with
  | some v => some v
  | none => dictGet (default_settings home) key

/-- `SettingsManager.save_settings` (browser.py:139-144): rewrites the whole
backing file with the in-memory mapping; the body is wrapped in
`try/except`, so a failing write only logs and leaves the disk as it was. -/
def save_settings (st : SettingsState) (writeFail : Bool) : SettingsState :=
  if writeFail then st else { st with disk := some st.settings }

/-- `SettingsManager.set` (browser.py:149-151): `self.settings[key] = value`
then `self.save_settings()`. -/
def settings_set (st : SettingsState) (key : String) (value : SVal)
    (writeFail : Bool) : SettingsState :=
  save_settings { st with settings := dictSet st.settings key value } writeFail

/-- `FuturisticBrowser.navigate_to_url` (browser.py:734-750), the URL
computed from the address-bar text: strip, and unless the text starts with
`http://` or `https://`, either prefix `https://` (when it contains a dot
and no space) or build a search query from the configured engine with
spaces replaced by `+`. -/
def navigate_to_url_target (search_engine raw : String) : String :=
  let url_text := raw.trim
  if !(url_text.startsWith "http://") && !(url_text.startsWith "https://") then
    if url_text.contains '.' && !(url_text.contains ' ') then
      "https://" ++ url_text
    else
      search_engine ++ (url_text.replace " " "+")
  else url_text

/-- The address-bar rule exactly as the claim states it, as a three-case
analysis of the stripped input: already-schemed inputs load unchanged;
dotted space-free inputs get `https://`; everything else becomes a search
query with spaces replaced by `+`. -/
def claim_url_rule (search_engine s : String) : String :=
  if s.startsWith "http://" || s.startsWith "https://" then s
  else if s.contains '.' && !(s.contains ' ') then "https://" ++ s
  else search_engine ++ (s.replace " " "+")

/-- `FuturisticBrowser.generate_history_page` (browser.py:924-928) listing
query, with the literal `200` generalised to a `limit` parameter:
`SELECT ... FROM history ORDER BY visit_time DESC LIMIT ?`.  SQLite's
descending sort is modelled by insertion sort under the
newest-first relation. -/
def visitDesc (a b : HistoryRow) : Prop :=
  b.visit_time ≤ a.visit_time

instance : DecidableRel visitDesc := fun a b =>
  inferInstanceAs (Decidable (b.visit_time ≤ a.visit_time))

instance : IsTotal HistoryRow visitDesc :=
  ⟨fun a b => Nat.le_total b.visit_time a.visit_time⟩

instance : IsTrans HistoryRow visitDesc :=
  ⟨fun _ _ _ hab hbc => Nat.le_trans hbc hab⟩

/-- The rows the history page renders: newest first, capped at `limit`
(the page itself passes `limit = 200`). -/
def listHistory (hst : List HistoryRow) (limit : Nat) : List HistoryRow :=
  (List.insertionSort visitDesc hst).take limit

/-- The row list behind `generate_history_page` with its hard-coded
`LIMIT 200`. -/
def generate_history_items (hst : List HistoryRow) : List HistoryRow :=
  listHistory hst 200

/-! ## Helper lemmas -/

/-- Dict lookup after setting the same key. -/
theorem dictGet_dictSet_self (d : List (String × SVal)) (k : String)
    (v : SVal) : dictGet (dictSet d k v) k = some v := by
  induction d with
  | nil => simp [dictSet, dictGet]
  | cons kv rest ih =>
    by_cases h : kv.1 = k
    · simp [dictSet, dictGet, h]
    · simp [dictSet, dictGet, h, ih]

/-- Dict lookup after setting a different key. -/
theorem dictGet_dictSet_ne (d : List (String × SVal)) (k k' : String)
    (v : SVal) (h : k' ≠ k) : dictGet (dictSet d k v) k' = dictGet d k' := by
  have hne : ¬(k = k') := fun hk => h hk.symm
  induction d with
  | nil => simp [dictSet, dictGet, hne]
  | cons kv rest ih =>
    by_cases hk : kv.1 = k
    · subst hk
      simp [dictSet, dictGet, hne]
    · simp [dictSet, dictGet, hk, ih]

/-- Folding dict assignments over pairs none of which bind `k` leaves the
lookup of `k` unchanged. -/
theorem dictGet_foldl_dictSet_of_not_mem (obj : List (String × SVal))
    (acc : List (String × SVal)) (k : String)
    (h : k ∉ obj.map Prod.fst) :
    dictGet (obj.foldl (fun a kv => dictSet a kv.1 kv.2) acc) k =
      dictGet acc k := by
  induction obj generalizing acc with
  | nil => rfl
  | cons kv rest ih =>
    simp only [List.map_cons, List.mem_cons] at h
    push_neg at h
    rw [List.foldl_cons, ih _ h.2, dictGet_dictSet_ne _ _ _ _ h.1]

/-- Folding dict assignments over pairs with distinct keys makes each bound
key look up to its bound value. -/
theorem dictGet_foldl_dictSet_of_mem (obj : List (String × SVal))
    (acc : List (String × SVal)) (k : String) (v : SVal)
    (hnd : (obj.map Prod.fst).Nodup) (hmem : (k, v) ∈ obj) :
    dictGet (obj.foldl (fun a kv => dictSet a kv.1 kv.2) acc) k = some v := by
  induction obj generalizing acc with
  | nil => cases hmem
  | cons kv rest ih =>
    simp only [List.map_cons, List.nodup_cons] at hnd
    obtain ⟨h1, h2⟩ := hnd
    rcases List.mem_cons.1 hmem with heq | hrest
    · subst heq
      rw [List.foldl_cons]
      rw [dictGet_foldl_dictSet_of_not_mem rest _ k h1]
      exact dictGet_dictSet_self _ _ _
    · rw [List.foldl_cons]
      exact ih _ h2 hrest

/-! ## C10 -/

/-- C10: the URL loaded from address-bar input is, after stripping
surrounding whitespace: the input unchanged when it already starts with
`http://` or `https://`; `https://` + input when it contains a dot and no
space; otherwise the configured search-engine prefix plus the input with
every space replaced by `+`. -/
theorem C10_navigate_to_url_matches_claim (search_engine raw : String) :
    navigate_to_url_target search_engine raw =
      claim_url_rule search_engine raw.trim := by
  unfold navigate_to_url_target claim_url_rule
  cases h1 : raw.trim.startsWith "http://" <;>
    cases h2 : raw.trim.startsWith "https://" <;>
      simp [h1, h2]

/-! ## C9 -/

/-- C9: the history listing returns at most `limit` rows, ordered by
`visit_time` in non-increasing (newest first) order; the page itself uses
`limit = 200`. -/
theorem C9_listHistory_capped_and_sorted (hst : List HistoryRow)
    (limit : Nat) :
    (listHistory hst limit).length ≤ limit ∧
    (listHistory hst limit).Pairwise
      (fun a b => b.visit_time ≤ a.visit_time) ∧
    generate_history_items hst = listHistory hst 200 := by
  refine ⟨?_, ?_, rfl⟩
  · simp only [listHistory, List.length_take]
    exact Nat.min_le_left _ _
  · exact List.Pairwise.sublist (List.take_sublist _ _)
      (List.sorted_insertionSort visitDesc hst)

/-! ## C7 -/

/-- C7: `set(key, value)` updates the in-memory mapping and then rewrites
the whole backing file; on a write failure only the disk is left stale —
the in-memory mapping holds the new value either way, so a subsequent
`get(key)` returns the newly set value. -/
theorem C7_set_memory_first_then_disk (st : SettingsState)
    (home key : String) (value : SVal) (writeFail : Bool) :
    settings_get home (settings_set st key value writeFail).settings key =
      some value ∧
    (settings_set st key value writeFail).settings =
      dictSet st.settings key value ∧
    (settings_set st key value writeFail).disk =
      (if writeFail then st.disk else some (dictSet st.settings key value)) := by
  unfold settings_set save_settings settings_get
  cases writeFail <;> simp [dictGet_dictSet_self]

/-! ## C2 -/

/-- C2 counterexample: with a failing underlying sqlite call, the bookmark
and history operations do *not* catch the failure at the call site — the
exception escapes the operation to its caller (and, for the bookmark
operations, escapes `toggle_bookmark` as well). -/
theorem C2_counterexample :
    add_bookmark_op [] "https://e.x/" "t" 0 true = .error () ∧
    remove_bookmark_op [] "https://e.x/" true = .error () ∧
    is_bookmarked_op [] "https://e.x/" true = .error () ∧
    add_to_history_op [] "https://e.x/" "t" 0 true = .error () ∧
    toggle_bookmark [] "https://e.x/" "t" 0 true = .error () := by
  exact ⟨rfl, rfl, rfl, rfl, rfl⟩

/-- C2 amended: the download-record operations (insert, progress update,
finish update) catch a failing database call at the call site and behave as
no-ops, but the history-record and bookmark add/remove/query operations have
no handler — a failure propagates out of the operation to its caller
(for the bookmark operations, through `toggle_bookmark` as well; the
history record's sole caller catches it one level up). -/
theorem C2_amended_failure_policy (hst : List HistoryRow)
    (bms : List BookmarkRow) (store : List DownloadRec) (did : Option Nat)
    (item : DItem) (url title : String) (now : Nat) (received total : Int)
    (fileExists : Bool) :
    setup_db_record store item now true = (store, none) ∧
    on_progress store did received total true = store ∧
    on_finished store did fileExists now true = store ∧
    add_to_history_op hst url title now true = .error () ∧
    add_bookmark_op bms url title now true = .error () ∧
    remove_bookmark_op bms url true = .error () ∧
    is_bookmarked_op bms url true = .error () ∧
    toggle_bookmark bms url title now true = .error () := by
  exact ⟨rfl, rfl, rfl, rfl, rfl, rfl, rfl, rfl⟩

/-! ## C5 -/

/-- C5 counterexample: `_setup_db_record` initialises `size` with the
engine-reported `totalBytes` of the item, not with `0` — an item reporting
100 total bytes yields a fresh record whose `size` field is 100. -/
theorem C5_counterexample :
    ((setup_db_record [] ⟨"https://e.x/f", "f.bin", "/tmp/f.bin", 100⟩ 7
        false).1.map (fun r => r.size)) = [100] ∧ (100 : Int) ≠ 0 := by
  exact ⟨rfl, by decide⟩

/-- C5 amended: a successful `_setup_db_record` appends exactly one new
record, with `status = "downloading"`, `downloaded = 0`, `size` equal to the
item's reported `totalBytes` (0 when the engine does not report one),
`start_time` stamped, no `end_time`, and records the new row's id. -/
theorem C5_amended_setup_db_record (store : List DownloadRec) (item : DItem)
    (now : Nat) :
    ∃ rec : DownloadRec,
      (setup_db_record store item now false).1 = store ++ [rec] ∧
      rec.status = "downloading" ∧
      rec.downloaded = 0 ∧
      rec.size = item.totalBytes ∧
      rec.url = item.url ∧
      rec.filename = item.suggestedFileName ∧
      rec.filepath = item.path ∧
      rec.start_time = now ∧
      rec.end_time = none ∧
      (setup_db_record store item now false).2 = some rec.id := by
  exact ⟨_, rfl, rfl, rfl, rfl, rfl, rfl, rfl, rfl, rfl, rfl⟩

/-! ## C8 -/

/-- C8: after `add_bookmark(u, t)` the query `is_bookmarked(u)` returns
true, and after a subsequent `remove_bookmark(u)` it returns false, from
any starting bookmark table. -/
theorem C8_bookmark_roundtrip (bms : List BookmarkRow) (u t : String)
    (now : Nat) :
    is_bookmarked (add_bookmark bms u t now) u = true ∧
    is_bookmarked (remove_bookmark (add_bookmark bms u t now) u) u = false := by
  refine ⟨?_, ?_⟩
  · simp [is_bookmarked, add_bookmark, List.countP_append]
  · simp [is_bookmarked, remove_bookmark, add_bookmark, List.filter_append,
      List.countP_eq_zero, List.mem_filter]

/-! ## C6 -/

/-- C6: a successful progress update overwrites only the `downloaded` and
`size` fields of the record whose id matches; its other fields, and every
other record, are unchanged, and no record is added or removed. -/
theorem C6_on_progress_frame (store : List DownloadRec) (did : Nat)
    (received total : Int) :
    (on_progress store (some did) received total false).length =
      store.length ∧
    ∀ p ∈ store.zip (on_progress store (some did) received total false),
      (p.2.id = p.1.id ∧ p.2.status = p.1.status ∧ p.2.url = p.1.url ∧
       p.2.filename = p.1.filename ∧ p.2.filepath = p.1.filepath ∧
       p.2.start_time = p.1.start_time ∧ p.2.end_time = p.1.end_time) ∧
      (p.1.id = did → p.2.downloaded = received ∧ p.2.size = total) ∧
      (p.1.id ≠ did → p.2 = p.1) := by
  constructor
  · simp [on_progress]
  · intro p hp
    have hzip : store.zip (store.map (progressFn (some did) received total)) =
        store.map (fun a => (a, progressFn (some did) received total a)) := by
      have h := List.zip_map' id (progressFn (some did) received total) store
      simpa using h
    rw [show on_progress store (some did) received total false =
          store.map (progressFn (some did) received total) from rfl,
        hzip] at hp
    obtain ⟨a, _, rfl⟩ := List.mem_map.1 hp
    by_cases hid : a.id = did
    · refine ⟨?_, fun _ => ?_, fun hne => absurd hid hne⟩ <;>
        simp [progressFn, hid]
    · refine ⟨?_, fun h => absurd h hid, fun _ => ?_⟩ <;>
        simp [progressFn, hid]

/-- Witness for C6 at a concrete one-row table. -/
theorem C6_on_progress_frame_witness :
    ((⟨1, "u", "f", "p", "downloading", 5, 2, 0, none⟩ : DownloadRec),
     (⟨1, "u", "f", "p", "downloading", 20, 10, 0, none⟩ : DownloadRec)) ∈
      ([⟨1, "u", "f", "p", "downloading", 5, 2, 0, none⟩] :
          List DownloadRec).zip
        (on_progress [⟨1, "u", "f", "p", "downloading", 5, 2, 0, none⟩]
          (some 1) 10 20 false) ∧
    (⟨1, "u", "f", "p", "downloading", 20, 10, 0, none⟩ :
        DownloadRec).status = "downloading" := by
  refine ⟨by decide, ?_⟩
  have h := (C6_on_progress_frame
    [⟨1, "u", "f", "p", "downloading", 5, 2, 0, none⟩] 1 10 20).2
    (⟨1, "u", "f", "p", "downloading", 5, 2, 0, none⟩,
     ⟨1, "u", "f", "p", "downloading", 20, 10, 0, none⟩) (by decide)
  exact h.1.2.1

/-! ## C4 -/

/-- C4 counterexample: loading a settings file that carries the known keys
plus an unknown `extra_key` does not crash and leaves known keys intact,
but `get` of the unknown key returns the file's value for it — it does not
treat the unknown key as absent. -/
theorem C4_counterexample :
    settings_get "/home/u"
        (load_settings "/home/u" (some
          [("theme_color", .str "#000000"),
           ("search_engine", .str "https://duckduckgo.com/?q="),
           ("homepage", .str "https://example.org"),
           ("download_directory", .str "/tmp/dl"),
           ("show_bookmarks_bar", .bool false),
           ("enable_javascript", .bool false),
           ("restore_last_session", .bool false),
           ("last_session_tabs", .list ["https://a.example"]),
           ("extra_key", .num 42)]))
        "extra_key" = some (SVal.num 42) ∧
    some (SVal.num 42) ≠ (none : Option SVal) := by
  exact ⟨by decide, by decide⟩

/-- C4 amended: loading a settings file (a parsed object with unique keys)
never crashes, and `get` of *every* key bound in the file — known or
unknown — returns the file's value; in particular known keys resolve to the
file's values and the unknown extra key does not influence them, but the
unknown key is preserved rather than treated as absent. -/
theorem C4_amended_load_lookup (home : String) (obj : List (String × SVal))
    (k : String) (v : SVal) (hnd : (obj.map Prod.fst).Nodup)
    (hmem : (k, v) ∈ obj) :
    settings_get home (load_settings home (some obj)) k = some v := by
  unfold settings_get load_settings
  rw [dictGet_foldl_dictSet_of_mem obj _ k v hnd hmem]

/-- Witness for the amended C4 lookup at a concrete file. -/
theorem C4_amended_load_lookup_witness :
    settings_get "/home/u"
        (load_settings "/home/u" (some
          [("homepage", .str "https://example.org"),
           ("extra_key", .num 42)]))
        "homepage" = some (SVal.str "https://example.org") := by
  exact C4_amended_load_lookup "/home/u"
    [("homepage", .str "https://example.org"), ("extra_key", .num 42)]
    "homepage" (SVal.str "https://example.org") (by decide) (by decide)

/-! ## C1 -/

/-- The upsert's update arm never changes a row's url. -/
theorem updFn_url (url title : String) (now : Nat) (r : HistoryRow) :
    (updFn url title now r).url = r.url := by
  unfold updFn
  split <;> rfl

/-- Applying the update arm over a table with no matching row is the
identity. -/
theorem map_updFn_of_no_match (hst : List HistoryRow) (url title : String)
    (now : Nat) (h : ∀ r ∈ hst, (r.url == url) = false) :
    hst.map (updFn url title now) = hst := by
  induction hst with
  | nil => rfl
  | cons r rest ih =>
    simp only [List.map_cons]
    rw [ih (fun a ha => h a (List.mem_cons_of_mem _ ha))]
    have hr := h r (List.mem_cons_self _ _)
    simp [updFn, hr]

/-- The update arm preserves the number of rows matching the url. -/
theorem countP_map_updFn (hst : List HistoryRow) (url title : String)
    (now : Nat) :
    (hst.map (updFn url title now)).countP (fun r => r.url == url) =
      hst.countP (fun r => r.url == url) := by
  induction hst with
  | nil => rfl
  | cons r rest ih =>
    simp only [List.map_cons, List.countP_cons, ih, updFn_url]

/-- Under the UNIQUE constraint (no duplicate urls) at most one row matches
a url. -/
theorem countP_url_le_one (hst : List HistoryRow) (url : String)
    (hnd : (hst.map (·.url)).Nodup) :
    hst.countP (fun r => r.url == url) ≤ 1 := by
  induction hst with
  | nil => simp
  | cons r rest ih =>
    simp only [List.map_cons, List.nodup_cons] at hnd
    obtain ⟨h1, h2⟩ := hnd
    rw [List.countP_cons]
    by_cases h : r.url = url
    · have hz : rest.countP (fun a => a.url == url) = 0 := by
        rw [List.countP_eq_zero]
        intro a ha hpa
        exact h1 (List.mem_map.2 ⟨a, ha, by rw [eq_of_beq hpa, h]⟩)
      simp [hz, h]
    · simp only [beq_iff_eq, h, if_false]
      simpa using ih h2

/-- C1: recording a visit twice for the same url (titles `t1` then `t2`) on
a table satisfying the UNIQUE-url constraint leaves exactly one row for
that url; its title is `t2`, its visit time is the second call's timestamp,
and its visit count has grown by one per call — 2 when the url was not
present before. -/
theorem C1_record_visit_twice (hst : List HistoryRow) (url t1 t2 : String)
    (now1 now2 : Nat) (hnd : (hst.map (·.url)).Nodup) :
    (add_to_history (add_to_history hst url t1 now1) url t2 now2).countP
        (fun r => r.url == url) = 1 ∧
    ∀ r ∈ add_to_history (add_to_history hst url t1 now1) url t2 now2,
      r.url = url →
      r.title = t2 ∧ r.visit_time = now2 ∧
      r.visit_count =
        (match hst.find? (fun r0 => r0.url == url) with
         | some r0 => r0.visit_count + 2
         | none => 2) := by
  by_cases hex : hst.any (fun r => r.url == url)
  · -- the url is already present
    have hfind : ∃ r0, hst.find? (fun a => a.url == url) = some r0 := by
      rw [← Option.isSome_iff_exists]
      rw [List.find?_isSome]
      simpa using hex
    obtain ⟨r0, hr0⟩ := hfind
    have hr0p := List.find?_some hr0
    have hr0mem : r0 ∈ hst := List.mem_of_find?_eq_some hr0
    have h1 : add_to_history hst url t1 now1 =
        hst.map (updFn url t1 now1) := by
      simp [add_to_history, hex]
    have hex2 : (hst.map (updFn url t1 now1)).any
        (fun r => r.url == url) = true := by
      rw [List.any_eq_true]
      refine ⟨updFn url t1 now1 r0, List.mem_map_of_mem _ hr0mem, ?_⟩
      rw [updFn_url]
      exact hr0p
    have h2 : add_to_history (add_to_history hst url t1 now1) url t2 now2 =
        (hst.map (updFn url t1 now1)).map (updFn url t2 now2) := by
      rw [h1]
      simp [add_to_history, hex2]
    rw [h2]
    constructor
    · rw [countP_map_updFn, countP_map_updFn]
      refine Nat.le_antisymm (countP_url_le_one hst url hnd) ?_
      rw [Nat.succ_le_iff, List.countP_pos_iff]
      exact ⟨r0, hr0mem, hr0p⟩
    · intro r hr hurl
      rw [List.map_map] at hr
      obtain ⟨a, ha, rfl⟩ := List.mem_map.1 hr
      by_cases hpa : a.url = url
      · have ha0 : a = r0 :=
          List.inj_on_of_nodup_map hnd ha hr0mem
            (by rw [hpa, eq_of_beq hr0p])
        subst ha0
        rw [hr0]
        simp [updFn, hpa]
      · exfalso
        apply hpa
        have : updFn url t2 now2 (updFn url t1 now1 a) = a := by
          simp [updFn, hpa]
        rw [Function.comp_apply, this] at hurl
        exact hurl
  · -- the url is absent: the first call inserts a fresh row
    have hnom : ∀ r ∈ hst, (r.url == url) = false := by
      intro r hr
      rw [List.any_eq_true] at hex
      push_neg at hex
      simpa using hex r hr
    have hfind : hst.find? (fun a => a.url == url) = none := by
      rw [List.find?_eq_none]
      intro a ha
      simp [hnom a ha]
    have h1 : add_to_history hst url t1 now1 =
        hst ++ [⟨nextId (hst.map (·.id)), url, t1, now1, 1⟩] := by
      simp only [add_to_history]
      rw [if_neg]
      simpa using hex
    have hcnt0 : hst.countP (fun r => r.url == url) = 0 := by
      rw [List.countP_eq_zero]
      intro a ha
      simp [hnom a ha]
    have hex2 : (hst ++
        [(⟨nextId (hst.map (·.id)), url, t1, now1, 1⟩ : HistoryRow)]).any
        (fun r => r.url == url) = true := by
      rw [List.any_eq_true]
      exact ⟨(⟨nextId (hst.map (·.id)), url, t1, now1, 1⟩ : HistoryRow),
        by simp, by simp⟩
    have h2 : add_to_history (add_to_history hst url t1 now1) url t2 now2 =
        hst ++ [(⟨nextId (hst.map (·.id)), url, t2, now2, 2⟩ : HistoryRow)] := by
      rw [h1]
      simp only [add_to_history, hex2, if_pos]
      rw [List.map_append, map_updFn_of_no_match hst url t2 now2 hnom]
      simp [updFn]
    rw [h2, hfind]
    constructor
    · rw [List.countP_append, hcnt0]
      simp
    · intro r hr hurl
      rcases List.mem_append.1 hr with hmem | hmem
      · exact absurd hurl (by simpa using hnom r hmem)
      · rw [List.mem_singleton] at hmem
        subst hmem
        exact ⟨rfl, rfl, rfl⟩

/-- Witness for C1 on a concrete table already holding the url with
visit_count 3. -/
theorem C1_record_visit_twice_witness :
    (add_to_history (add_to_history
        [⟨1, "https://a.x/", "old", 4, 3⟩] "https://a.x/" "t1" 5)
        "https://a.x/" "t2" 6).countP
      (fun r => r.url == "https://a.x/") = 1 := by
  exact (C1_record_visit_twice [⟨1, "https://a.x/", "old", 4, 3⟩]
    "https://a.x/" "t1" "t2" 5 6 (by decide)).1

/-! ## C3 -/

/-- C3 counterexample, both invariants of the claim failing at explicit
inputs.  First: starting from the record `_setup_db_record` inserts for an
item of engine-reported size 5, a progress event carrying
`received = 10, total = 5` is written verbatim, so the stored `downloaded`
exceeds the stored (known, positive) `size`.  Second: after a successful
finish event the record's status is the terminal `"completed"`, yet a
second successful finish event (with the file gone again) overwrites it
with `"failed"` — a terminal status changes to another status. -/
theorem C3_counterexample :
    (¬ (∀ r ∈ apply_events
          (setup_db_record [] ⟨"https://e.x/f", "f.bin", "/tmp/f.bin", 5⟩ 0
            false).1
          (setup_db_record [] ⟨"https://e.x/f", "f.bin", "/tmp/f.bin", 5⟩ 0
            false).2
          [DEvent.progress 10 5 false],
        0 < r.size → r.downloaded ≤ r.size)) ∧
    statusesOf (apply_events
        [⟨1, "u", "f", "p", "downloading", 5, 0, 0, none⟩] (some 1)
        [DEvent.finish true 9 false]) = ["completed"] ∧
    isTerminalStatus "completed" = true ∧
    statusesOf (apply_events
        [⟨1, "u", "f", "p", "downloading", 5, 0, 0, none⟩] (some 1)
        ([DEvent.finish true 9 false] ++ [DEvent.finish false 11 false])) =
      ["failed"] := by
  exact ⟨by decide, by decide, by decide, by decide⟩

/-- The progress update never touches the status column. -/
theorem progressFn_status (did : Option Nat) (received total : Int)
    (r : DownloadRec) : (progressFn did received total r).status = r.status := by
  unfold progressFn
  split <;> rfl

/-- The finish update never touches the downloaded column. -/
theorem finishFn_downloaded (did : Option Nat) (status : String) (now : Nat)
    (r : DownloadRec) :
    (finishFn did status now r).downloaded = r.downloaded := by
  unfold finishFn
  split <;> rfl

/-- The finish update never touches the size column. -/
theorem finishFn_size (did : Option Nat) (status : String) (now : Nat)
    (r : DownloadRec) : (finishFn did status now r).size = r.size := by
  unfold finishFn
  split <;> rfl

/-- Mapping a status-preserving row transformation preserves the status
column of the table. -/
theorem statusesOf_map_status_preserving (f : DownloadRec → DownloadRec)
    (hf : ∀ r, (f r).status = r.status) (store : List DownloadRec) :
    statusesOf (store.map f) = statusesOf store := by
  induction store with
  | nil => rfl
  | cons r rest ih =>
    simp only [statusesOf, List.map_cons] at ih ⊢
    rw [hf r, ih]

/-- Unfolding one event of `apply_events`. -/
theorem apply_events_cons (store : List DownloadRec) (did : Option Nat)
    (e : DEvent) (rest : List DEvent) :
    apply_events store did (e :: rest) =
      apply_events (apply_event store did e) did rest := by
  unfold apply_events
  rw [List.foldl_cons]

/-- Splitting `apply_events` over an append of event lists. -/
theorem apply_events_append (store : List DownloadRec) (did : Option Nat)
    (l t : List DEvent) :
    apply_events store did (l ++ t) =
      apply_events (apply_events store did l) did t := by
  unfold apply_events
  rw [List.foldl_append]

/-- A sequence without a successful finish event leaves the status column
of the table unchanged: progress updates and failed updates never write
`status`. -/
theorem statusesOf_apply_events_no_finish (did : Option Nat) :
    ∀ evs : List DEvent, countFinish evs = 0 →
    ∀ store, statusesOf (apply_events store did evs) = statusesOf store := by
  intro evs
  induction evs with
  | nil => intro _ store; rfl
  | cons e rest ih =>
    intro h store
    have he : finishOkP e = false := by
      cases hfe : finishOkP e
      · rfl
      · exfalso
        unfold countFinish at h
        rw [List.countP_cons, hfe] at h
        simp at h
    have hrest : countFinish rest = 0 := by
      unfold countFinish at h ⊢
      rw [List.countP_cons, he] at h
      simpa using h
    rw [apply_events_cons, ih hrest (apply_event store did e)]
    cases e with
    | progress received total f =>
      cases f
      · exact statusesOf_map_status_preserving _
          (progressFn_status did received total) store
      · rfl
    | finish fe now f =>
      cases f
      · simp [finishOkP] at he
      · rfl

/-- Every progress event of the sequence keeping `received ≤ total`, the
guarded invariant "`downloaded ≤ size` once `size` is known (`size > 0`)"
is preserved.  The guard makes the invariant hold for every record
`_setup_db_record` creates (its `downloaded` starts at 0), including
unknown-size records whose engine-reported `totalBytes` is negative. -/
theorem downloaded_le_size_apply_events (did : Option Nat) :
    ∀ evs : List DEvent, (∀ e ∈ evs, progressOkB e = true) →
    ∀ store : List DownloadRec,
    (∀ r ∈ store, 0 < r.size → r.downloaded ≤ r.size) →
    ∀ r ∈ apply_events store did evs, 0 < r.size → r.downloaded ≤ r.size := by
  intro evs
  induction evs with
  | nil => intro _ store hinit; exact hinit
  | cons e rest ih =>
    intro hwf store hinit
    rw [apply_events_cons]
    apply ih (fun e' he' => hwf e' (List.mem_cons_of_mem _ he'))
    intro r hr
    cases e with
    | progress received total f =>
      have hok : received ≤ total := by
        have := hwf _ (List.mem_cons_self _ _)
        simpa [progressOkB] using this
      cases f
      · simp only [apply_event, on_progress, Bool.false_eq_true,
          if_false] at hr
        obtain ⟨a, ha, rfl⟩ := List.mem_map.1 hr
        unfold progressFn
        split
        · intro _
          simpa using hok
        · exact hinit a ha
      · exact hinit r (by simpa [apply_event, on_progress] using hr)
    | finish fe now f =>
      cases f
      · simp only [apply_event, on_finished, Bool.false_eq_true,
          if_false] at hr
        obtain ⟨a, ha, rfl⟩ := List.mem_map.1 hr
        rw [finishFn_downloaded, finishFn_size]
        exact hinit a ha
      · exact hinit r (by simpa [apply_event, on_finished] using hr)

/-- Statuses reachable from any starting statuses in
{downloading, completed, failed}: the handlers only ever write
`completed` or `failed`. -/
theorem status_cases_apply_events (did : Option Nat) :
    ∀ evs : List DEvent, ∀ store : List DownloadRec,
    (∀ r ∈ store, r.status = "downloading" ∨ r.status = "completed" ∨
      r.status = "failed") →
    ∀ r ∈ apply_events store did evs,
      r.status = "downloading" ∨ r.status = "completed" ∨
        r.status = "failed" := by
  intro evs
  induction evs with
  | nil => intro store hinit; exact hinit
  | cons e rest ih =>
    intro store hinit
    rw [apply_events_cons]
    apply ih
    intro r hr
    cases e with
    | progress received total f =>
      cases f
      · simp only [apply_event, on_progress, Bool.false_eq_true,
          if_false] at hr
        obtain ⟨a, ha, rfl⟩ := List.mem_map.1 hr
        rw [progressFn_status]
        exact hinit a ha
      · exact hinit r (by simpa [apply_event, on_progress] using hr)
    | finish fe now f =>
      cases f
      · simp only [apply_event, on_finished, Bool.false_eq_true,
          if_false] at hr
        obtain ⟨a, ha, rfl⟩ := List.mem_map.1 hr
        unfold finishFn
        split
        · cases fe
          · right; right; rfl
          · right; left; rfl
        · exact hinit a ha
      · exact hinit r (by simpa [apply_event, on_finished] using hr)

/-- C3 amended: for records in status `"downloading"` satisfying the
claim's own guarded invariant — `downloaded ≤ size` whenever `size` is
known (`size > 0`), which every record `_setup_db_record` creates
satisfies since its `downloaded` starts at 0 (also those with negative
engine-reported `totalBytes`) — and event sequences whose progress events
are engine-well-formed (`received ≤ total`) and which contain at most one
successful finish event: the stored `downloaded` never exceeds the stored
`size` once `size > 0`; every reachable status is `downloading`,
`completed` or `failed` (the code never writes `canceled`); and once any
record's status is terminal after a prefix of the sequence, the status
column never changes again. -/
theorem C3_amended_download_invariants (store : List DownloadRec)
    (did : Option Nat) (evs : List DEvent)
    (hds : ∀ r ∈ store, 0 < r.size → r.downloaded ≤ r.size)
    (hst0 : ∀ r ∈ store, r.status = "downloading")
    (hwf : ∀ e ∈ evs, progressOkB e = true)
    (hfin : countFinish evs ≤ 1) :
    (∀ r ∈ apply_events store did evs, 0 < r.size → r.downloaded ≤ r.size) ∧
    (∀ r ∈ apply_events store did evs,
      r.status = "downloading" ∨ r.status = "completed" ∨
        r.status = "failed") ∧
    (∀ l t, evs = l ++ t →
      ∀ r ∈ apply_events store did l, isTerminalStatus r.status = true →
        statusesOf (apply_events store did evs) =
          statusesOf (apply_events store did l)) := by
  refine ⟨downloaded_le_size_apply_events did evs hwf store hds,
    status_cases_apply_events did evs store
      (fun r hr => Or.inl (hst0 r hr)), ?_⟩
  rintro l t rfl r hr hterm
  have hl : 1 ≤ countFinish l := by
    by_contra hlt
    have h0 : countFinish l = 0 := by omega
    have hs := statusesOf_apply_events_no_finish did l h0 store
    have hmem : r.status ∈ statusesOf (apply_events store did l) :=
      List.mem_map_of_mem _ hr
    rw [hs] at hmem
    obtain ⟨r0, hr0, heq⟩ := List.mem_map.1 hmem
    rw [← heq, hst0 r0 hr0] at hterm
    exact absurd hterm (by decide)
  have hsplit : countFinish (l ++ t) = countFinish l + countFinish t := by
    unfold countFinish
    exact List.countP_append _ _ _
  have ht0 : countFinish t = 0 := by omega
  rw [apply_events_append]
  exact statusesOf_apply_events_no_finish did t ht0 _

/-- Witness for the amended C3 on a store created by `_setup_db_record`
itself, for an item with engine-reported `totalBytes = -1` (size unknown):
the hypotheses hold for such a record, and after a successful finish the
record is terminal, so a later progress event leaves the status column
unchanged. -/
theorem C3_amended_witness :
    statusesOf (apply_events
        (setup_db_record [] ⟨"https://e.x/g", "g.bin", "/tmp/g.bin", -1⟩ 0
          false).1
        (setup_db_record [] ⟨"https://e.x/g", "g.bin", "/tmp/g.bin", -1⟩ 0
          false).2
        [DEvent.finish true 9 false, DEvent.progress 3 5 false]) =
      statusesOf (apply_events
        (setup_db_record [] ⟨"https://e.x/g", "g.bin", "/tmp/g.bin", -1⟩ 0
          false).1
        (setup_db_record [] ⟨"https://e.x/g", "g.bin", "/tmp/g.bin", -1⟩ 0
          false).2
        [DEvent.finish true 9 false]) := by
  exact (C3_amended_download_invariants
      (setup_db_record [] ⟨"https://e.x/g", "g.bin", "/tmp/g.bin", -1⟩ 0
        false).1
      (setup_db_record [] ⟨"https://e.x/g", "g.bin", "/tmp/g.bin", -1⟩ 0
        false).2
      ([DEvent.finish true 9 false] ++ [DEvent.progress 3 5 false])
      (by decide) (by decide) (by decide) (by decide)).2.2
    [DEvent.finish true 9 false] [DEvent.progress 3 5 false] rfl
    ⟨1, "https://e.x/g", "g.bin", "/tmp/g.bin", "completed", -1, 0, 0,
      some 9⟩ (by decide) (by decide)
